import Mathlib

/-!
Shallow embedding of the go-playstation-api client library
(auth.go, client.go, types.go, and the request/dispatch file) and proofs
about its authentication/token lifecycle, request dispatch, decoding and
construction layers.

Modelling conventions:
* Effects become explicit oracle inputs.  An HTTP call is represented by
  the response the transport produced (`Option HttpResp`, `none` meaning a
  transport-level error, which in Go includes cancellation during the
  call); `ctx.Err()` checks become Boolean fields of the oracle; the two
  `time.Now()` readings of `authRequest` become `now1`/`now2`; JSON
  decoding (`json.Unmarshal`) becomes a decoder function in the oracle.
* Go `time.Time` instants and `time.Duration` values are modelled as
  `Int` nanosecond counts with twos-complement int64 wraparound where Go
  performs int64 arithmetic (`time.Second * time.Duration(x)` and
  `Time.Add`).
* Go errors become inductive error kinds, one constructor per distinct
  `errors.New` / `fmt.Errorf` site, carrying the data the format string
  interpolates.
* Pointer mutation of `ClientAPI.Tokens` becomes explicit state passing:
  `ClientAPI.request` returns the post-state.  The network calls a run of
  `request` performs are recorded as an event trace (`Ev`).
-/

/-- Twos-complement wraparound of an integer into the int64 range,
modelling the int64 arithmetic overflow behaviour of Go. -/
def wrap64 (x : Int) : Int :=
  (x + 9223372036854775808) % 18446744073709551616 - 9223372036854775808

/-- `time.Second * time.Duration(s)`: seconds to nanoseconds, as Go int64
multiplication (wraps on overflow). -/
def goSecondsDur (s : Int) : Int :=
  wrap64 (1000000000 * s)

/-- `t.Add(d)` for a `time.Time` instant `t` (nanoseconds) and a
`time.Duration` `d`: int64 addition with wraparound. -/
def goTimeAdd (t d : Int) : Int :=
  wrap64 (t + d)

theorem wrap64_eq_of_range (x : Int)
    (h1 : -9223372036854775808 ≤ x) (h2 : x < 9223372036854775808) :
    wrap64 x = x := by
  unfold wrap64
  omega

/-- The two validation failures of `validateNPSSO` (`ErrNPSSOEmpty`,
`ErrNPSSOLength` in auth.go). -/
inductive NpssoErr where
  | empty
  | wrongLength
  deriving DecidableEq

/-- `validateNPSSO` (auth.go): rejects an empty NPSSO, then any NPSSO whose
length is not exactly 64.  Go `len` on a string counts UTF-8 bytes, hence
`String.utf8ByteSize`.  Returns `none` for a valid credential (Go `nil`
error), `some e` for the error returned. -/
def validateNPSSO (npsso : String) : Option NpssoErr :=
  if npsso = "" then some .empty
  else if npsso.utf8ByteSize ≠ 64 then some .wrongLength
  else none

/-- C7: `validateNPSSO` fails with the Empty kind exactly on the empty
string, fails with WrongLength exactly on non-empty strings whose length
(Go `len`, i.e. UTF-8 byte count) differs from 64, and succeeds exactly on
strings of length 64.  As a Lean function of its argument it is pure,
deterministic and total by construction. -/
theorem validateNPSSO_spec (s : String) :
    (validateNPSSO s = some NpssoErr.empty ↔ s = "") ∧
    (validateNPSSO s = some NpssoErr.wrongLength ↔ s ≠ "" ∧ s.utf8ByteSize ≠ 64) ∧
    (validateNPSSO s = none ↔ s.utf8ByteSize = 64) := by
  unfold validateNPSSO
  by_cases h : s = ""
  · subst h
    simp
    decide
  · by_cases hl : s.utf8ByteSize = 64 <;> simp [h, hl]

/-- A concrete run of `validateNPSSO_spec`: the all-a 64-byte credential is
accepted. -/
theorem validateNPSSO_spec_witness :
    validateNPSSO "aaaaaaaaaaaaaaaaaaaaaaaaaaaaaaaaaaaaaaaaaaaaaaaaaaaaaaaaaaaaaaaa" = none :=
  (validateNPSSO_spec "aaaaaaaaaaaaaaaaaaaaaaaaaaaaaaaaaaaaaaaaaaaaaaaaaaaaaaaaaaaaaaaa").2.2.mpr
    (by decide)

/-- An HTTP response as the code inspects it: status code, the `Location`
header (read by the authorization step) and the body (read by the token
step and by resource dispatch). -/
structure HttpResp where
  status : Nat
  location : String
  body : String
  deriving DecidableEq

/-- The `Tokens` struct of types.go.  `accessExpires` / `refreshExpires`
are the int64 JSON fields `expires_in` / `refresh_token_expires_in` (in
seconds); the two `...ExpiresTime` fields are `time.Time` instants,
modelled as int64 nanosecond counts. -/
structure Tokens where
  accessToken : String
  refreshToken : String
  accessExpires : Int
  refreshExpires : Int
  accessExpiresTime : Int
  refreshExpiresTime : Int
  deriving DecidableEq

/-- Oracle for one run of `authRequest`: what the transport, the context,
the URL query parsing, the JSON decoder and the clock produce during that
run.
* `authResp` — result of `httpClient.Do` on the authorization GET
  (`none` = transport error, which is how cancellation during the call
  surfaces in Go).
* `ctxErrAfterAuth` — whether `ctx.Err()` is non-nil at the check right
  after the authorization call.
* `getCode` — `url.Parse(location)` followed by `Query().Get("code")`:
  `none` models a parse error, `some ""` a parseable URL with no `code`
  parameter.
* `tokenResp` — result of `httpClient.Do` on the token POST.
* `ctxErrAfterToken` — `ctx.Err()` non-nil at the check after the token
  call.
* `tokenBodyReadErr` — whether `io.ReadAll` on the token body fails.
* `decodeTokens` — `json.Unmarshal` of the token body into `Tokens`
  (`none` = decode error; the two time fields of a decoded value are
  overwritten by `authRequest`).
* `now1`, `now2` — the two `time.Now()` readings used to compute the
  access and refresh expiry instants. -/
structure ExchangeEnv where
  authResp : Option HttpResp
  ctxErrAfterAuth : Bool
  getCode : String → Option String
  tokenResp : Option HttpResp
  ctxErrAfterToken : Bool
  tokenBodyReadErr : Bool
  decodeTokens : String → Option Tokens
  now1 : Int
  now2 : Int

/-- `strings.HasPrefix(s, pre)`: whether `pre` is an initial segment of
`s` (computed structurally on the character list so that concrete runs
reduce). -/
def stringStarts (s pre : String) : Bool :=
  pre.data.isPrefixOf s.data

/-- The failure kinds of `authRequest` (auth.go), one per error-returning
site, in source order.  `checkNpsso` is the shared message
"error: check npsso" returned both for a non-302 authorization status and
for a code not prefixed by "v3". -/
inductive AuthErr where
  | npssoRequired
  | sendingRequest
  | requestCancelled
  | checkNpsso
  | parsingLocation
  | sendingTokenRequest
  | tokenRequestCancelled
  | unableToObtainToken
  | readingBody
  | parsingTokenResponse
  deriving DecidableEq

/-- `Client.authRequest` (auth.go): the two-step OAuth code exchange.
Request construction (`http.NewRequestWithContext`) cannot fail here since
method and URL are fixed valid constants, so those branches are elided.
Everything else follows the source control flow: empty-npsso guard,
authorization GET, post-call cancellation check, 302 check, Location
parsing, "v3" code prefix check, token POST, post-call cancellation
check, 200 check, body read, JSON decode, then the two expiry instants are
set from `now1`/`now2` plus the decoded lifetimes (seconds, converted to a
Go `time.Duration`). -/
def Client.authRequest (npsso : String) (env : ExchangeEnv) : Except AuthErr Tokens :=
  if npsso = "" then .error .npssoRequired
  else
    match env.authResp with
    | none => .error .sendingRequest
    | some resp =>
      if env.ctxErrAfterAuth then .error .requestCancelled
      else if resp.status ≠ 302 then .error .checkNpsso
      else
        match env.getCode resp.location with
        | none => .error .parsingLocation
        | some code =>
          if stringStarts code "v3" = false then .error .checkNpsso
          else
            match env.tokenResp with
            | none => .error .sendingTokenRequest
            | some tresp =>
              if env.ctxErrAfterToken then .error .tokenRequestCancelled
              else if tresp.status ≠ 200 then .error .unableToObtainToken
              else if env.tokenBodyReadErr then .error .readingBody
              else
                match env.decodeTokens tresp.body with
                | none => .error .parsingTokenResponse
                | some tj =>
                  .ok { tj with
                        accessExpiresTime :=
                          goTimeAdd env.now1 (goSecondsDur tj.accessExpires),
                        refreshExpiresTime :=
                          goTimeAdd env.now2 (goSecondsDur tj.refreshExpires) }

/-- Failure kinds of `Client.Authenticate` (auth.go): credential
validation failure ("invalid npsso: ...") or a failed exchange
("cannot do auth request", quoting the Go message). -/
inductive AuthenticateErr where
  | invalidNpsso (e : NpssoErr)
  | canNotDoAuthRequest (e : AuthErr)
  deriving DecidableEq

/-- The `ClientAPI` struct of types.go, the Authenticated Session: the
held token pair (a nil-able pointer, hence `Option`) and the original
NPSSO credential.  The embedded `*Client` carries only transport and
locale configuration and is not part of the dispatch logic modelled
here. -/
structure ClientAPI where
  tokens : Option Tokens
  npsso : String
  deriving DecidableEq

/-- `Client.Authenticate` (auth.go): validate the NPSSO, run the exchange,
and on success build a `ClientAPI` holding the fresh token pair and the
credential. -/
def Client.Authenticate (npsso : String) (env : ExchangeEnv) :
    Except AuthenticateErr ClientAPI :=
  match validateNPSSO npsso with
  | some e => .error (.invalidNpsso e)
  | none =>
    match Client.authRequest npsso env with
    | .error e => .error (.canNotDoAuthRequest e)
    | .ok tokens => .ok { tokens := some tokens, npsso := npsso }

/-- Network events a run of `ClientAPI.request` performs, in order: a full
token re-exchange (`authRequest` with the stored credential) and the
dispatch of the protected GET. -/
inductive Ev where
  | reExchange (npsso : String)
  | getDispatch (url : String)
  deriving DecidableEq

/-- Failure kinds of `ClientAPI.request` and `requestAndUnmarshal`, one
per error-returning site, carrying what the Go format strings
interpolate. -/
inductive ReqErr where
  | invalidTokens
  | refreshFailed (e : AuthErr)
  | sendingRequest
  | readingBody
  | notFound (url : String)
  | rateLimited
  | unexpectedStatus (status : Nat) (body : String)
  | malformedResponse (body : String)
  | remoteError (message : String)
  deriving DecidableEq

/-- `ClientAPI.request` (the dispatch file): guard that a token pair with
a non-empty access token is held; if the held access-expiry instant is
strictly before `now` (`AccessExpiresTime.Before(time.Now())`), re-run the
full exchange with the stored NPSSO and install the new pair, aborting
with the refresh error if it fails; then dispatch the GET and map the
response status (200/401/403 return the body, 404 → not-found,
429 → rate-limited, anything else → unexpected-status with status and raw
body).  Returns the post-state (Go mutates `c.Tokens` through the
pointer), the event trace, and the result.  Request construction cannot
fail for the fixed well-formed resource URLs, so that branch is elided;
`resp = none` models a transport error from `httpClient.Do`, and
`bodyReadErr` an `io.ReadAll` failure. -/
def ClientAPI.request (c : ClientAPI) (url : String) (now : Int)
    (env : ExchangeEnv) (resp : Option HttpResp) (bodyReadErr : Bool) :
    ClientAPI × List Ev × Except ReqErr String :=
  match c.tokens with
  | none => (c, [], .error .invalidTokens)
  | some t =>
    if t.accessToken = "" then (c, [], .error .invalidTokens)
    else
      let refreshed : Except AuthErr ClientAPI :=
        if t.accessExpiresTime < now then
          match Client.authRequest c.npsso env with
          | .error e => .error e
          | .ok nt => .ok { c with tokens := some nt }
        else .ok c
      let evs : List Ev :=
        if t.accessExpiresTime < now then [Ev.reExchange c.npsso] else []
      match refreshed with
      | .error e => (c, evs, .error (.refreshFailed e))
      | .ok c2 =>
        let evs := evs ++ [Ev.getDispatch url]
        match resp with
        | none => (c2, evs, .error .sendingRequest)
        | some r =>
          if bodyReadErr then (c2, evs, .error .readingBody)
          else if r.status = 200 then (c2, evs, .ok r.body)
          else if r.status = 401 then (c2, evs, .ok r.body)
          else if r.status = 403 then (c2, evs, .ok r.body)
          else if r.status = 404 then (c2, evs, .error (.notFound url))
          else if r.status = 429 then (c2, evs, .error .rateLimited)
          else (c2, evs, .error (.unexpectedStatus r.status r.body))

/-- The `RequestError` struct of types.go (the generic error envelope
`{reason, source, code, message, referenceId}`), flattened. -/
structure RequestError where
  reason : String
  source : String
  code : Int
  message : String
  referenceId : String
  deriving DecidableEq

/-- `ClientAPI.requestAndUnmarshal` (the dispatch file): run `request`,
then decode the returned body first as the generic error envelope
(failure → "error unmarshaling response"), fail with the remote error
carrying the envelope message if its code field is non-zero, and otherwise
decode into the target shape `V` of the caller (failure → the same
"error unmarshaling response" kind).  `decodeEnvelope` and `decodeTarget`
are the two `json.Unmarshal` calls. -/
def ClientAPI.requestAndUnmarshal {V : Type} (c : ClientAPI) (url : String)
    (now : Int) (env : ExchangeEnv) (resp : Option HttpResp)
    (bodyReadErr : Bool) (decodeEnvelope : String → Option RequestError)
    (decodeTarget : String → Option V) :
    ClientAPI × List Ev × Except ReqErr V :=
  match ClientAPI.request c url now env resp bodyReadErr with
  | (c2, evs, .error e) => (c2, evs, .error e)
  | (c2, evs, .ok body) =>
    match decodeEnvelope body with
    | none => (c2, evs, .error (.malformedResponse body))
    | some re =>
      if re.code ≠ 0 then (c2, evs, .error (.remoteError re.message))
      else
        match decodeTarget body with
        | none => (c2, evs, .error (.malformedResponse body))
        | some v => (c2, evs, .ok v)

/-- The `CheckRedirect` policy of a Go `http.Client` as the code distinguishes
it: the nil default (follow redirects) or the function returning
`http.ErrUseLastResponse` that `NewClient` installs (return redirect
responses unfollowed). -/
inductive RedirectPolicy where
  | followRedirects
  | useLastResponse
  deriving DecidableEq

/-- The observable part of a Go `http.Client` value for this library: its
redirect policy. -/
structure GoHttpClient where
  checkRedirect : RedirectPolicy
  deriving DecidableEq

instance : Inhabited GoHttpClient := ⟨⟨RedirectPolicy.followRedirects⟩⟩

/-- A heap of `http.Client` objects; pointers are indices.  Index 0 is the
global `http.DefaultClient`.  Needed to state that `NewClient` mutates a
fresh copy and not the object of the caller. -/
structure Heap where
  cells : List GoHttpClient

def Heap.get (h : Heap) (p : Nat) : GoHttpClient :=
  h.cells.getD p default

/-- `&value` on a fresh copy: allocate a new cell, return the new heap and
the pointer to the cell. -/
def Heap.alloc (h : Heap) (v : GoHttpClient) : Heap × Nat :=
  ({ cells := h.cells ++ [v] }, h.cells.length)

/-- Modelled from the spec: the enumerated sets of supported language and
region tags live in a source file not present under src/ (only
`Languages[0]`, `Regions[0]` and membership checks are referenced); the
spec requires only non-empty enumerated sets of tags. -/
def Languages : List String := ["fr-FR", "en-US"]

/-- Modelled from the spec: see `Languages`. -/
def Regions : List String := ["FR", "US"]

/-- The `Client` struct of types.go: a pointer to the HTTP transport plus
language and region tags. -/
structure Client where
  httpClientPtr : Nat
  lang : String
  region : String
  deriving DecidableEq

/-- An `Options` value (types.go): a function mutating the client under
construction.  The three provided option constructors only set fields of
the `Client` record. -/
def ClientOpt : Type := Client → Client

/-- `defaultConfig` (client.go): first language, first region,
`http.DefaultClient` (heap index 0). -/
def defaultConfig : Client :=
  { httpClientPtr := 0, lang := Languages.getD 0 "", region := Regions.getD 0 "" }

/-- `NewClient` (client.go): start from the default configuration, apply
each option in order, then take a copy of the configured transport
(`httpClient := *c.httpClient`), set `CheckRedirect` on the copy to
return `http.ErrUseLastResponse`, allocate it, and
return a `Client` pointing at the fresh copy. -/
def NewClient (opts : List ClientOpt) (h : Heap) : Client × Heap :=
  let c := opts.foldl (fun c o => o c) defaultConfig
  let copied : GoHttpClient :=
    { h.get c.httpClientPtr with checkRedirect := RedirectPolicy.useLastResponse }
  let ah := h.alloc copied
  ({ httpClientPtr := ah.2, lang := c.lang, region := c.region }, ah.1)

/-- `WithClient` (client.go): reject a nil pointer, otherwise produce an
option that stores the supplied transport pointer in the client. -/
def WithClient (client : Option Nat) : Except String ClientOpt :=
  match client with
  | none => .error "cannot use nil httpClient"
  | some p => .ok fun c => { c with httpClientPtr := p }

/-! Concrete fixtures shared by the witness theorems. -/

instance {e a : Type} [DecidableEq e] [DecidableEq a] : DecidableEq (Except e a) :=
  fun x y =>
    match x, y with
    | .ok u, .ok v =>
      if h : u = v then .isTrue (by rw [h]) else .isFalse (by simp [h])
    | .error u, .error v =>
      if h : u = v then .isTrue (by rw [h]) else .isFalse (by simp [h])
    | .ok _, .error _ => .isFalse (by simp)
    | .error _, .ok _ => .isFalse (by simp)

/-- A well-formed 64-byte NPSSO credential. -/
def npsso64 : String :=
  "aaaaaaaaaaaaaaaaaaaaaaaaaaaaaaaaaaaaaaaaaaaaaaaaaaaaaaaaaaaaaaaa"

/-- A decoded token body as the server of the spec example returns it
(before `authRequest` overwrites the two expiry instants). -/
def tokensWire : Tokens :=
  { accessToken := "A", refreshToken := "B", accessExpires := 3600,
    refreshExpires := 5184000, accessExpiresTime := 0, refreshExpiresTime := 0 }

/-- An exchange oracle for a fully successful run: 302 with a v3-prefixed
code, 200 token response decoding to `tokensWire`, no cancellation, both
clock readings at 100 ns. -/
def envGood : ExchangeEnv :=
  { authResp :=
      some { status := 302
             , location := "com.scee.psxandroid.scecompcall://redirect?code=v3abc"
             , body := "" },
    ctxErrAfterAuth := false,
    getCode := fun _ => some "v3abc",
    tokenResp := some { status := 200, location := "", body := "tokenbody" },
    ctxErrAfterToken := false,
    tokenBodyReadErr := false,
    decodeTokens := fun _ => some tokensWire,
    now1 := 100, now2 := 100 }

/-- The token pair `authRequest npsso64 envGood` produces: the wire fields
of `tokensWire` with expiry instants 100 + 3600e9 ns and
100 + 5184000e9 ns. -/
def tokensFresh : Tokens :=
  { accessToken := "A", refreshToken := "B", accessExpires := 3600,
    refreshExpires := 5184000, accessExpiresTime := 3600000000100,
    refreshExpiresTime := 5184000000000100 }

/-- A held token pair whose access expiry (at -5 ns) is already in the
past at time 0. -/
def tokensExpired : Tokens :=
  { accessToken := "OLD", refreshToken := "OLDR", accessExpires := 3600,
    refreshExpires := 5184000, accessExpiresTime := -5,
    refreshExpiresTime := 1000000 }

/-- A held token pair whose access expiry (at 10^18 ns) is in the future
at time 0. -/
def tokensLive : Tokens :=
  { accessToken := "LIVE", refreshToken := "LIVER", accessExpires := 3600,
    refreshExpires := 5184000, accessExpiresTime := 1000000000000000000,
    refreshExpiresTime := 1000000000000000000 }

/-- Inversion: a successful `authRequest` run pins down every branch the
source took — non-empty credential, no cancellation at either check, a 302
authorization response with a parseable v3-prefixed code, a 200 token
response whose body read and decode succeeded — and the produced token
pair is the decoded value with the two expiry instants recomputed from
`now1`/`now2`. -/
theorem authRequest_ok_inv (npsso : String) (env : ExchangeEnv) (t : Tokens)
    (h : Client.authRequest npsso env = Except.ok t) :
    npsso ≠ "" ∧ env.ctxErrAfterAuth = false ∧ env.ctxErrAfterToken = false ∧
    ∃ r, env.authResp = some r ∧ r.status = 302 ∧
    ∃ code, env.getCode r.location = some code ∧ stringStarts code "v3" = true ∧
    ∃ tr, env.tokenResp = some tr ∧ tr.status = 200 ∧
      env.tokenBodyReadErr = false ∧
    ∃ tj, env.decodeTokens tr.body = some tj ∧
      t = { tj with
            accessExpiresTime := goTimeAdd env.now1 (goSecondsDur tj.accessExpires),
            refreshExpiresTime := goTimeAdd env.now2 (goSecondsDur tj.refreshExpires) } := by
  by_cases hn : npsso = ""
  · simp [Client.authRequest, hn] at h
  rcases har : env.authResp with _ | r
  · simp [Client.authRequest, hn, har] at h
  cases hc : env.ctxErrAfterAuth with
  | true => simp [Client.authRequest, hn, har, hc] at h
  | false =>
    by_cases hs : r.status = 302
    case neg => simp [Client.authRequest, hn, har, hc, hs] at h
    rcases hcode : env.getCode r.location with _ | code
    · simp [Client.authRequest, hn, har, hc, hs, hcode] at h
    cases hpre : stringStarts code "v3" with
    | false => simp [Client.authRequest, hn, har, hc, hs, hcode, hpre] at h
    | true =>
      rcases htr : env.tokenResp with _ | tr
      · simp [Client.authRequest, hn, har, hc, hs, hcode, hpre, htr] at h
      cases hct : env.ctxErrAfterToken with
      | true => simp [Client.authRequest, hn, har, hc, hs, hcode, hpre, htr, hct] at h
      | false =>
        by_cases hts : tr.status = 200
        case neg =>
          simp [Client.authRequest, hn, har, hc, hs, hcode, hpre, htr, hct, hts] at h
        cases hbr : env.tokenBodyReadErr with
        | true =>
          simp [Client.authRequest, hn, har, hc, hs, hcode, hpre, htr, hct, hts, hbr] at h
        | false =>
          rcases hdec : env.decodeTokens tr.body with _ | tj
          · simp [Client.authRequest, hn, har, hc, hs, hcode, hpre, htr, hct, hts,
              hbr, hdec] at h
          have hrun : Client.authRequest npsso env
              = Except.ok { tj with
                  accessExpiresTime := goTimeAdd env.now1 (goSecondsDur tj.accessExpires),
                  refreshExpiresTime :=
                    goTimeAdd env.now2 (goSecondsDur tj.refreshExpires) } := by
            simp [Client.authRequest, hn, har, hc, hs, hcode, hpre, htr, hct, hts,
              hbr, hdec]
          rw [hrun] at h
          injection h with h2
          exact ⟨hn, rfl, rfl, r, rfl, hs, code, hcode, hpre, tr, rfl, hts, rfl, tj,
            hdec, h2.symm⟩

/-- C1: on a protected call with a held, non-empty access token: when the
access-expiry instant is strictly before `now`, exactly one re-exchange
with the stored credential runs first — on its success the held pair is
replaced by its result and the GET is dispatched after it, and on its
failure the call returns the refresh error with no GET dispatched and no
replacement; when the expiry is not before `now`, the trace holds no
re-exchange. -/
theorem ClientAPI.request_lazyRefresh (c : ClientAPI) (t : Tokens)
    (url : String) (now : Int) (env : ExchangeEnv) (resp : Option HttpResp)
    (bodyReadErr : Bool) (h1 : c.tokens = some t) (h2 : t.accessToken ≠ "") :
    (t.accessExpiresTime < now →
      (∀ nt, Client.authRequest c.npsso env = .ok nt →
        (ClientAPI.request c url now env resp bodyReadErr).1.tokens = some nt ∧
        (ClientAPI.request c url now env resp bodyReadErr).2.1
          = [Ev.reExchange c.npsso, Ev.getDispatch url]) ∧
      (∀ e, Client.authRequest c.npsso env = .error e →
        ClientAPI.request c url now env resp bodyReadErr
          = (c, [Ev.reExchange c.npsso], .error (.refreshFailed e)))) ∧
    (¬ t.accessExpiresTime < now →
      (ClientAPI.request c url now env resp bodyReadErr).2.1
        = [Ev.getDispatch url]) := by
  refine ⟨fun hlt => ⟨fun nt hok => ?_, fun e herr => ?_⟩, fun hge => ?_⟩
  · cases resp with
    | none => simp [ClientAPI.request, h1, h2, hlt, hok]
    | some r =>
      simp only [ClientAPI.request, h1, h2, hlt, hok]
      simp [h2]
      split_ifs <;> simp
  · simp [ClientAPI.request, h1, h2, hlt, herr]
  · cases resp with
    | none => simp [ClientAPI.request, h1, h2, hge]
    | some r =>
      simp only [ClientAPI.request, h1, h2, hge]
      simp [h2, hge]
      split_ifs <;> simp

/-- A concrete run of `ClientAPI.request_lazyRefresh`: a session holding
`tokensExpired` (expiry -5 ns) calling at time 0 against `envGood`
re-exchanges once, installs `tokensFresh`, and dispatches the GET after
the re-exchange. -/
theorem ClientAPI.request_lazyRefresh_witness :
    (ClientAPI.request { tokens := some tokensExpired, npsso := npsso64 } "u" 0
        envGood (some { status := 200, location := "", body := "RB" })
        false).1.tokens = some tokensFresh ∧
    (ClientAPI.request { tokens := some tokensExpired, npsso := npsso64 } "u" 0
        envGood (some { status := 200, location := "", body := "RB" })
        false).2.1 = [Ev.reExchange npsso64, Ev.getDispatch "u"] :=
  (ClientAPI.request_lazyRefresh
      { tokens := some tokensExpired, npsso := npsso64 } tokensExpired "u" 0
      envGood (some { status := 200, location := "", body := "RB" }) false rfl
      (by decide)).1 (by decide) |>.1 tokensFresh (by decide)

/-- C2: in a run of the exchange that reaches the authorization response
(non-empty credential, transport success, no cancellation there): a
non-302 status, or a parsed code not prefixed "v3", yields the
authorization-failed error ("check npsso") whatever the token-step oracle
holds (the token step is never reached); past those checks, a non-200
token status yields the token-exchange-failed error, a 200 whose body does
not decode yields the malformed-token-response error, and a token pair is
produced only from a 200 response with a decodable body. -/
theorem Client.authRequest_errorTaxonomy (npsso : String) (env : ExchangeEnv)
    (r : HttpResp) (hn : npsso ≠ "") (ha : env.authResp = some r)
    (hc : env.ctxErrAfterAuth = false) :
    (r.status ≠ 302 →
      ∀ tr c2 b2 dec n1 n2,
        Client.authRequest npsso
          { env with tokenResp := tr, ctxErrAfterToken := c2,
                     tokenBodyReadErr := b2, decodeTokens := dec,
                     now1 := n1, now2 := n2 } = .error .checkNpsso) ∧
    (∀ code, env.getCode r.location = some code → stringStarts code "v3" = false →
      ∀ tr c2 b2 dec n1 n2,
        Client.authRequest npsso
          { env with tokenResp := tr, ctxErrAfterToken := c2,
                     tokenBodyReadErr := b2, decodeTokens := dec,
                     now1 := n1, now2 := n2 } = .error .checkNpsso) ∧
    (∀ tr, env.tokenResp = some tr → r.status = 302 →
      ∀ code, env.getCode r.location = some code → stringStarts code "v3" = true →
        env.ctxErrAfterToken = false →
        (tr.status ≠ 200 →
          Client.authRequest npsso env = .error .unableToObtainToken) ∧
        (tr.status = 200 → env.tokenBodyReadErr = false →
          env.decodeTokens tr.body = none →
            Client.authRequest npsso env = .error .parsingTokenResponse)) ∧
    (∀ t, Client.authRequest npsso env = .ok t →
      ∃ tr tj, env.tokenResp = some tr ∧ tr.status = 200 ∧
        env.decodeTokens tr.body = some tj) := by
  refine ⟨?_, ?_, ?_, ?_⟩
  · intro hs tr c2 b2 dec n1 n2
    simp [Client.authRequest, hn, ha, hc, hs]
  · intro code hcode hpre tr c2 b2 dec n1 n2
    by_cases hs : r.status = 302
    · simp [Client.authRequest, hn, ha, hc, hs, hcode, hpre]
    · simp [Client.authRequest, hn, ha, hc, hs]
  · intro tr htr hs code hcode hpre hct
    constructor
    · intro hts
      simp [Client.authRequest, hn, ha, hc, hs, hcode, hpre, htr, hct, hts]
    · intro hts hbr hdec
      simp [Client.authRequest, hn, ha, hc, hs, hcode, hpre, htr, hct, hts, hbr, hdec]
  · intro t hok
    obtain ⟨-, -, -, r2, -, -, code, -, -, tr, htr, hts, -, tj, hdec, -⟩ :=
      authRequest_ok_inv npsso env t hok
    exact ⟨tr, tj, htr, hts, hdec⟩

/-- A concrete run of `Client.authRequest_errorTaxonomy`: a 200 (non-302)
authorization response makes the exchange fail with "check npsso" even
with an empty token-step oracle. -/
theorem Client.authRequest_errorTaxonomy_witness :
    Client.authRequest npsso64
      { envGood with
          authResp := some { status := 200, location := "", body := "" },
          tokenResp := none, ctxErrAfterToken := false,
          tokenBodyReadErr := false, decodeTokens := fun _ => none,
          now1 := 0, now2 := 0 } = .error .checkNpsso :=
  (Client.authRequest_errorTaxonomy npsso64
      { envGood with authResp := some { status := 200, location := "", body := "" } }
      { status := 200, location := "", body := "" } (by decide) rfl rfl).1
    (by decide) none false false (fun _ => none) 0 0

/-- C3: a successful exchange decoding lifetimes `expires_in` and
`refresh_token_expires_in` (seconds) sets the access-expiry instant to the
first `time.Now()` reading plus `expires_in` seconds and the refresh-expiry
instant to the second reading plus `refresh_token_expires_in` seconds
(instants in nanoseconds), whenever the nanosecond conversions and sums
stay in int64 range. -/
theorem Client.authRequest_expiryComputation (npsso : String)
    (env : ExchangeEnv) (t tj : Tokens) (tr : HttpResp)
    (htr : env.tokenResp = some tr)
    (hdec : env.decodeTokens tr.body = some tj)
    (hok : Client.authRequest npsso env = .ok t)
    (hb1 : -9223372036854775808 ≤ 1000000000 * tj.accessExpires)
    (hb2 : 1000000000 * tj.accessExpires < 9223372036854775808)
    (hb3 : -9223372036854775808 ≤ env.now1 + 1000000000 * tj.accessExpires)
    (hb4 : env.now1 + 1000000000 * tj.accessExpires < 9223372036854775808)
    (hb5 : -9223372036854775808 ≤ 1000000000 * tj.refreshExpires)
    (hb6 : 1000000000 * tj.refreshExpires < 9223372036854775808)
    (hb7 : -9223372036854775808 ≤ env.now2 + 1000000000 * tj.refreshExpires)
    (hb8 : env.now2 + 1000000000 * tj.refreshExpires < 9223372036854775808) :
    t.accessExpiresTime = env.now1 + 1000000000 * tj.accessExpires ∧
    t.refreshExpiresTime = env.now2 + 1000000000 * tj.refreshExpires := by
  obtain ⟨-, -, -, r, -, -, code, -, -, tr2, htr2, -, -, tj2, hdec2, ht⟩ :=
    authRequest_ok_inv npsso env t hok
  rw [htr2] at htr
  injection htr with he
  subst he
  rw [hdec2] at hdec
  injection hdec with he2
  subst he2
  subst ht
  constructor
  · show goTimeAdd env.now1 (goSecondsDur tj2.accessExpires) = _
    rw [goSecondsDur, wrap64_eq_of_range _ hb1 hb2, goTimeAdd,
      wrap64_eq_of_range _ hb3 hb4]
  · show goTimeAdd env.now2 (goSecondsDur tj2.refreshExpires) = _
    rw [goSecondsDur, wrap64_eq_of_range _ hb5 hb6, goTimeAdd,
      wrap64_eq_of_range _ hb7 hb8]

/-- A concrete run of `Client.authRequest_expiryComputation`: the spec
example (`expires_in` 3600, `refresh_token_expires_in` 5184000, both
clock readings at 100 ns) yields expiry instants 100 + 3600e9 and
100 + 5184000e9. -/
theorem Client.authRequest_expiryComputation_witness :
    tokensFresh.accessExpiresTime = envGood.now1 + 1000000000 * tokensWire.accessExpires ∧
    tokensFresh.refreshExpiresTime = envGood.now2 + 1000000000 * tokensWire.refreshExpires :=
  Client.authRequest_expiryComputation npsso64 envGood tokensFresh tokensWire
    { status := 200, location := "", body := "tokenbody" } rfl rfl (by decide)
    (by decide) (by decide) (by decide) (by decide) (by decide) (by decide)
    (by decide) (by decide)

/-- A decoded token body with a negative `expires_in` (-1), which the Go
`json.Unmarshal` accepts into the int64 field. -/
def tokensWireNeg : Tokens :=
  { accessToken := "A", refreshToken := "B", accessExpires := -1,
    refreshExpires := 3600, accessExpiresTime := 0, refreshExpiresTime := 0 }

/-- `envGood` with the token body decoding to `tokensWireNeg` and both
clock readings at 0. -/
def envNeg : ExchangeEnv :=
  { envGood with decodeTokens := fun _ => some tokensWireNeg, now1 := 0, now2 := 0 }

/-- The token pair `authRequest npsso64 envNeg` produces: its access
expiry (-1e9 ns) lies before the exchange completion time (0). -/
def tokensNeg : Tokens :=
  { accessToken := "A", refreshToken := "B", accessExpires := -1,
    refreshExpires := 3600, accessExpiresTime := -1000000000,
    refreshExpiresTime := 3600000000000 }

/-- Counterexample to C8 as stated: a successful exchange whose server
returned `expires_in = -1` (at completion time 0) computes an access-expiry
instant strictly before the completion time, so the invariant does not
hold for every server-returned lifetime value. -/
theorem authRequest_negativeLifetime_cex :
    Client.authRequest npsso64 envNeg = .ok tokensNeg ∧
    tokensNeg.accessExpiresTime < envNeg.now1 :=
  ⟨by decide, by decide⟩

/-- C8 (amended): for a successful exchange whose server-returned access
lifetime is non-negative and small enough that its nanosecond conversion
and the resulting instant stay inside int64 range, the computed
access-expiry instant is at least the exchange completion time (the first
`time.Now()` reading, itself an int64 instant). -/
theorem Client.authRequest_expiryNotPast (npsso : String) (env : ExchangeEnv)
    (t tj : Tokens) (tr : HttpResp)
    (htr : env.tokenResp = some tr)
    (hdec : env.decodeTokens tr.body = some tj)
    (hok : Client.authRequest npsso env = .ok t)
    (hae : 0 ≤ tj.accessExpires)
    (hb2 : 1000000000 * tj.accessExpires < 9223372036854775808)
    (hnow : -9223372036854775808 ≤ env.now1)
    (hb4 : env.now1 + 1000000000 * tj.accessExpires < 9223372036854775808) :
    env.now1 ≤ t.accessExpiresTime := by
  obtain ⟨-, -, -, r, -, -, code, -, -, tr2, htr2, -, -, tj2, hdec2, ht⟩ :=
    authRequest_ok_inv npsso env t hok
  rw [htr2] at htr
  injection htr with he
  subst he
  rw [hdec2] at hdec
  injection hdec with he2
  subst he2
  subst ht
  show env.now1 ≤ goTimeAdd env.now1 (goSecondsDur tj2.accessExpires)
  rw [goSecondsDur, wrap64_eq_of_range _ (by omega) hb2, goTimeAdd,
    wrap64_eq_of_range _ (by omega) hb4]
  omega

/-- A concrete run of `Client.authRequest_expiryNotPast`: with the spec
example lifetimes the access expiry 3600000000100 is at least the
completion reading 100. -/
theorem Client.authRequest_expiryNotPast_witness :
    envGood.now1 ≤ tokensFresh.accessExpiresTime :=
  Client.authRequest_expiryNotPast npsso64 envGood tokensFresh tokensWire
    { status := 200, location := "", body := "tokenbody" } rfl rfl (by decide)
    (by decide) (by decide) (by decide) (by decide)

/-- C4: on a protected call that gets past the token guard with a live
token (no refresh) and receives a response whose body read succeeds:
200, 401 and 403 return the body for decoding; 404 fails not-found; 429
fails rate-limited; every other status fails unexpected-status carrying
the status code and the raw body. -/
theorem ClientAPI.request_statusHandling (c : ClientAPI) (t : Tokens)
    (url : String) (now : Int) (env : ExchangeEnv) (r : HttpResp)
    (h1 : c.tokens = some t) (h2 : t.accessToken ≠ "")
    (h3 : ¬ t.accessExpiresTime < now) :
    (r.status = 200 → ClientAPI.request c url now env (some r) false
      = (c, [Ev.getDispatch url], .ok r.body)) ∧
    (r.status = 401 → ClientAPI.request c url now env (some r) false
      = (c, [Ev.getDispatch url], .ok r.body)) ∧
    (r.status = 403 → ClientAPI.request c url now env (some r) false
      = (c, [Ev.getDispatch url], .ok r.body)) ∧
    (r.status = 404 → ClientAPI.request c url now env (some r) false
      = (c, [Ev.getDispatch url], .error (.notFound url))) ∧
    (r.status = 429 → ClientAPI.request c url now env (some r) false
      = (c, [Ev.getDispatch url], .error .rateLimited)) ∧
    (r.status ≠ 200 → r.status ≠ 401 → r.status ≠ 403 → r.status ≠ 404 →
      r.status ≠ 429 → ClientAPI.request c url now env (some r) false
        = (c, [Ev.getDispatch url], .error (.unexpectedStatus r.status r.body))) := by
  refine ⟨fun hs => ?_, fun hs => ?_, fun hs => ?_, fun hs => ?_, fun hs => ?_,
    fun hs1 hs2 hs3 hs4 hs5 => ?_⟩ <;>
    simp_all [ClientAPI.request, h1, h2, if_neg h3]

/-- A concrete run of `ClientAPI.request_statusHandling`: a 404 on a live
session fails with the not-found error for that URL. -/
theorem ClientAPI.request_statusHandling_witness :
    ClientAPI.request { tokens := some tokensLive, npsso := npsso64 } "u" 0
      envGood (some { status := 404, location := "", body := "nf" }) false
      = ({ tokens := some tokensLive, npsso := npsso64 },
         [Ev.getDispatch "u"], .error (.notFound "u")) :=
  (ClientAPI.request_statusHandling { tokens := some tokensLive, npsso := npsso64 }
      tokensLive "u" 0 envGood { status := 404, location := "", body := "nf" }
      rfl (by decide) (by decide)).2.2.2.1 rfl

/-- C9: a protected call on a session holding no token pair, or a token
pair with an empty access token, fails with the validation error
immediately: the returned trace is empty (no re-exchange, no dispatch) and
the state is unchanged, for every clock reading, so in particular also
when the held expiry is in the past. -/
theorem ClientAPI.request_requiresAccessToken (c : ClientAPI) :
    (c.tokens = none → ∀ url now env resp bodyReadErr,
      ClientAPI.request c url now env resp bodyReadErr
        = (c, [], .error .invalidTokens)) ∧
    (∀ t, c.tokens = some t → t.accessToken = "" →
      ∀ url now env resp bodyReadErr,
        ClientAPI.request c url now env resp bodyReadErr
          = (c, [], .error .invalidTokens)) := by
  constructor
  · intro hn url now env resp bodyReadErr
    simp [ClientAPI.request, hn]
  · intro t ht he url now env resp bodyReadErr
    simp [ClientAPI.request, ht, he]

/-- A concrete run of `ClientAPI.request_requiresAccessToken`: an
expired-token pair (expiry -5 ns, call at time 0) with an empty access
token still fails with the validation error, trace empty. -/
theorem ClientAPI.request_requiresAccessToken_witness :
    ClientAPI.request
      { tokens := some { tokensExpired with accessToken := "" }, npsso := npsso64 }
      "u" 0 envGood none false
      = ({ tokens := some { tokensExpired with accessToken := "" }, npsso := npsso64 },
         [], .error .invalidTokens) :=
  (ClientAPI.request_requiresAccessToken
      { tokens := some { tokensExpired with accessToken := "" }, npsso := npsso64 }).2
    { tokensExpired with accessToken := "" } rfl rfl "u" 0 envGood none false

/-- C5: for every body the dispatch layer hands to the decoding layer, the
body is decoded first as the generic error envelope; an envelope decode
failure fails malformed-response; a non-zero envelope code fails with the
remote error carrying the envelope message, for every target decoder (the
target shape is never produced); a zero code decodes the target, whose
decode failure fails malformed-response and whose success yields the
value. -/
theorem ClientAPI.requestAndUnmarshal_decodeLayer {V : Type} (c c2 : ClientAPI)
    (url : String) (now : Int) (env : ExchangeEnv) (resp : Option HttpResp)
    (bodyReadErr : Bool) (evs : List Ev) (body : String)
    (h : ClientAPI.request c url now env resp bodyReadErr = (c2, evs, .ok body)) :
    (∀ dEnv : String → Option RequestError, dEnv body = none →
      ∀ dV : String → Option V,
        ClientAPI.requestAndUnmarshal c url now env resp bodyReadErr dEnv dV
          = (c2, evs, .error (.malformedResponse body))) ∧
    (∀ dEnv : String → Option RequestError, ∀ re, dEnv body = some re →
      re.code ≠ 0 → ∀ dV : String → Option V,
        ClientAPI.requestAndUnmarshal c url now env resp bodyReadErr dEnv dV
          = (c2, evs, .error (.remoteError re.message))) ∧
    (∀ dEnv : String → Option RequestError, ∀ re, dEnv body = some re →
      re.code = 0 → ∀ dV : String → Option V, dV body = none →
        ClientAPI.requestAndUnmarshal c url now env resp bodyReadErr dEnv dV
          = (c2, evs, .error (.malformedResponse body))) ∧
    (∀ dEnv : String → Option RequestError, ∀ re, dEnv body = some re →
      re.code = 0 → ∀ dV : String → Option V, ∀ v, dV body = some v →
        ClientAPI.requestAndUnmarshal c url now env resp bodyReadErr dEnv dV
          = (c2, evs, .ok v)) := by
  refine ⟨?_, ?_, ?_, ?_⟩
  · intro dEnv hde dV
    simp [ClientAPI.requestAndUnmarshal, h, hde]
  · intro dEnv re hde hcode dV
    simp [ClientAPI.requestAndUnmarshal, h, hde, hcode]
  · intro dEnv re hde hcode dV hdv
    simp [ClientAPI.requestAndUnmarshal, h, hde, hcode, hdv]
  · intro dEnv re hde hcode dV v hdv
    simp [ClientAPI.requestAndUnmarshal, h, hde, hcode, hdv]

/-- A concrete run of `ClientAPI.requestAndUnmarshal_decodeLayer`: a 200
body whose envelope decodes with code 5 and message "boom" fails with the
remote error "boom" even though the target decoder would succeed. -/
theorem ClientAPI.requestAndUnmarshal_decodeLayer_witness :
    ClientAPI.requestAndUnmarshal { tokens := some tokensLive, npsso := npsso64 }
      "u" 0 envGood (some { status := 200, location := "", body := "B" }) false
      (fun _ => some { reason := "", source := "", code := 5, message := "boom",
                       referenceId := "" })
      (fun _ => some (7 : Nat))
      = ({ tokens := some tokensLive, npsso := npsso64 },
         [Ev.getDispatch "u"], .error (.remoteError "boom")) :=
  (ClientAPI.requestAndUnmarshal_decodeLayer
      { tokens := some tokensLive, npsso := npsso64 }
      { tokens := some tokensLive, npsso := npsso64 } "u" 0 envGood
      (some { status := 200, location := "", body := "B" }) false
      [Ev.getDispatch "u"] "B" (by decide)).2.1
    (fun _ => some { reason := "", source := "", code := 5, message := "boom",
                     referenceId := "" })
    { reason := "", source := "", code := 5, message := "boom", referenceId := "" }
    rfl (by decide) (fun _ => some (7 : Nat))

/-- C6: no token pair is installed by a failed exchange or refresh: a
failing `authRequest` makes `Authenticate` return an error and never a
session; an exchange interrupted by cancellation at either post-call check
never returns a token pair; and a protected call whose lazy refresh fails
returns the session state unchanged (the previously held pair still in
place) with the refresh error. -/
theorem tokenPair_installedOnlyOnSuccess :
    (∀ npsso env e, Client.authRequest npsso env = .error e →
      ∀ s, Client.Authenticate npsso env ≠ .ok s) ∧
    (∀ npsso env t,
      (env.ctxErrAfterAuth = true ∨ env.ctxErrAfterToken = true) →
      Client.authRequest npsso env ≠ .ok t) ∧
    (∀ c url now env resp bodyReadErr t e, c.tokens = some t →
      t.accessToken ≠ "" → t.accessExpiresTime < now →
      Client.authRequest c.npsso env = .error e →
      ClientAPI.request c url now env resp bodyReadErr
        = (c, [Ev.reExchange c.npsso], .error (.refreshFailed e))) := by
  refine ⟨?_, ?_, ?_⟩
  · intro npsso env e he s
    rcases hv : validateNPSSO npsso with _ | ev
    · simp [Client.Authenticate, hv, he]
    · simp [Client.Authenticate, hv]
  · intro npsso env t hor hok
    obtain ⟨-, hca, hct, -⟩ := authRequest_ok_inv npsso env t hok
    rcases hor with hflag | hflag <;> simp_all
  · intro c url now env resp bodyReadErr t e h1 h2 hlt herr
    simp [ClientAPI.request, h1, h2, hlt, herr]

/-- A concrete run of `tokenPair_installedOnlyOnSuccess`: cancellation
detected after the token call makes the refresh fail, and the session
keeps its previous (expired) pair untouched. -/
theorem tokenPair_installedOnlyOnSuccess_witness :
    ClientAPI.request { tokens := some tokensExpired, npsso := npsso64 } "u" 0
      { envGood with ctxErrAfterToken := true } none false
      = ({ tokens := some tokensExpired, npsso := npsso64 },
         [Ev.reExchange npsso64], .error (.refreshFailed .tokenRequestCancelled)) :=
  tokenPair_installedOnlyOnSuccess.2.2
    { tokens := some tokensExpired, npsso := npsso64 } "u" 0
    { envGood with ctxErrAfterToken := true } none false tokensExpired
    .tokenRequestCancelled rfl (by decide) (by decide) (by decide)

/-- C10: for every option list, the client `NewClient` returns points at
an `http.Client` whose redirect policy is "return the last response"
(redirects unfollowed); every pre-existing `http.Client` object — in
particular one supplied through the transport option — is left exactly as
it was; and when the transport option is the last configuration applied,
the transport of that client is a fresh copy of the supplied object with only
the redirect policy changed. -/
theorem NewClient_redirectPolicyOnCopy (opts : List ClientOpt) (h : Heap) :
    ((NewClient opts h).2.get (NewClient opts h).1.httpClientPtr).checkRedirect
      = RedirectPolicy.useLastResponse ∧
    (∀ p, p < h.cells.length → (NewClient opts h).2.get p = h.get p) ∧
    (∀ p f, WithClient (some p) = .ok f →
      (NewClient (opts ++ [f]) h).2.get (NewClient (opts ++ [f]) h).1.httpClientPtr
        = { h.get p with checkRedirect := RedirectPolicy.useLastResponse }) := by
  refine ⟨?_, ?_, ?_⟩
  · simp [NewClient, Heap.alloc, Heap.get, List.getD_eq_getElem?_getD,
      List.getElem?_append]
  · intro p hp
    simp [NewClient, Heap.alloc, Heap.get, List.getD_eq_getElem?_getD,
      List.getElem?_append, hp]
  · intro p f hf
    simp only [WithClient] at hf
    injection hf with hf2
    subst hf2
    simp [NewClient, Heap.alloc, Heap.get, List.foldl_append,
      List.getD_eq_getElem?_getD, List.getElem?_append]

/-- A one-cell heap whose only `http.Client` (index 0, the default
client) follows redirects. -/
def heap0 : Heap :=
  { cells := [{ checkRedirect := RedirectPolicy.followRedirects }] }

/-- The option `WithClient (some 0)` produces. -/
def optClient0 : ClientOpt :=
  fun c => { c with httpClientPtr := 0 }

/-- A concrete run of `NewClient_redirectPolicyOnCopy`: building from
`heap0` leaves the caller-visible object at index 0 untouched, while the
transport of the built client is a copy of it with redirect-following
disabled. -/
theorem NewClient_redirectPolicyOnCopy_witness :
    (NewClient [] heap0).2.get 0 = heap0.get 0 ∧
    (NewClient ([] ++ [optClient0]) heap0).2.get
        (NewClient ([] ++ [optClient0]) heap0).1.httpClientPtr
      = { heap0.get 0 with checkRedirect := RedirectPolicy.useLastResponse } :=
  ⟨(NewClient_redirectPolicyOnCopy [] heap0).2.1 0 (by decide),
   (NewClient_redirectPolicyOnCopy [] heap0).2.2 0 optClient0 rfl⟩
